import Mathlib

/-!
Shallow embedding of package `sentrywriter` (sentry_writer.go), a filtering
`io.Writer` wrapper over the sentry-go client, together with theorems about
its write/filter/breadcrumb behaviour.

Modelling conventions:
* A raw log record (`[]byte`) is modelled as a `RawLog`: the raw text plus the
  outcome of parsing that text with the Go `encoding/json` package (`none` when the text
  is not valid JSON, `some j` when it parses to the JSON value `j`).  The
  parser itself is the Go standard library, not code of this repository, so it
  enters the model only through this parse outcome.
* `encoding/json` behaviours that matter here are reproduced exactly:
  unmarshalling a JSON `null` into a Go map or string is a no-op that succeeds
  (the target keeps its zero value); unmarshalling the nil `json.RawMessage` of
  a missing key fails ("unexpected end of JSON input"); unmarshalling a
  non-object (other than null) into a map, or a non-string (other than null)
  into a string, fails; for duplicate keys in a JSON object the later value
  wins when building the map.
* `sentry.Scope` (a dependency, github.com/getsentry/sentry-go) is modelled by
  its fields used here: user id (`SetUser`), level (`SetLevel`), breadcrumbs
  (`AddBreadcrumb` with limit, eviction `breadcrumbs[1 : limit+1]`;
  `ClearBreadcrumbs`), and value-copy `Clone`.  Go zero values: user id and
  level start as the empty string.  Breadcrumb timestamps (wall-clock time)
  are omitted from the model.
* The injected `SentryClient` capability is modelled as `Option GoClient`
  (`none` = nil interface).  `CaptureMessage` calls made during a write are
  returned as the `forwarded` list of the result of that write; `Flush` on a nil
  client is a nil-pointer dereference (Go panic), modelled as `none`.
* Go `int` lengths/limits are modelled as `Nat` (all limits in the spec and
  claims are ≥ 0); `len(log)` is the length of the raw text.
-/

namespace Sentrywriter

/-- A JSON value, as decoded by the Go `encoding/json` package. -/
inductive Json where
  | null : Json
  | bool (b : Bool) : Json
  | num (n : Int) : Json
  | str (s : String) : Json
  | arr (elems : List Json) : Json
  | obj (fields : List (String × Json)) : Json

/-- A raw log record handed to `Write`: the raw bytes (as text) together with
the result of `encoding/json` parsing of those bytes (`none` = not valid
JSON). -/
structure RawLog where
  raw : String
  parsed : Option Json

/-- The `len(log)` for a raw record. -/
def RawLog.len (l : RawLog) : Nat := l.raw.length

/-- Go map lookup on the map built by `json.Unmarshal` from the field list of
an object: later duplicate keys overwrite earlier ones, a missing key gives the zero
value (here `none`, i.e. a nil `json.RawMessage`). -/
def mapLookup (fields : List (String × Json)) (key : String) : Option Json :=
  (fields.reverse.find? (fun kv => kv.1 == key)).map (fun kv => kv.2)

/-- The `json.Unmarshal(log, &eventMap)` with `eventMap : map[string]json.RawMessage`:
fails when the text is not JSON or is a non-null non-object; a top-level `null`
succeeds and leaves the map nil (no fields). -/
def unmarshalMap : Option Json → Except Unit (List (String × Json))
  | none => .error ()
  | some (.obj fields) => .ok fields
  | some .null => .ok []
  | some _ => .error ()

/-- The `json.Unmarshal(raw, &level)` with `level : string`, where `raw` is
`eventMap[field]`: a missing key is a nil `RawMessage` and fails; a JSON string
succeeds; a JSON `null` succeeds leaving the zero value `""`; anything else
fails. -/
def unmarshalString : Option Json → Except Unit String
  | none => .error ()
  | some (.str s) => .ok s
  | some .null => .ok ""
  | some _ => .error ()

/-- The `sentry.Breadcrumb` as built by `addBreadcrumb`: either the decoded data
map (`breadcrumb.Data = dataMap`) or the raw-text fallback message
(`breadcrumb.Message = string(log)`).  The timestamp is omitted. -/
inductive Breadcrumb where
  | data (fields : List (String × Json)) : Breadcrumb
  | message (raw : String) : Breadcrumb

/-- The breadcrumb built from a log by `SentryWriter.addBreadcrumb`:
`json.Unmarshal(log, &dataMap)` with `dataMap : map[string]interface{}`
succeeds on an object (decoded fields) and on `null` (nil map); on any other
input it fails and the raw text becomes the message of the breadcrumb. -/
def mkBreadcrumb (log : RawLog) : Breadcrumb :=
  match log.parsed with
  | some (.obj fields) => .data fields
  | some .null => .data []
  | _ => .message log.raw

/-- The fields of `sentry.Scope` used by this package: user id (set by
`SetUser`), level (set by `SetLevel`), and the breadcrumb list.  Go zero
values: `user` and `level` start as `""`. -/
structure Scope where
  user : String
  level : String
  breadcrumbs : List Breadcrumb

/-- The `sentry.NewScope()`. -/
def Scope.newScope : Scope := { user := "", level := "", breadcrumbs := [] }

/-- The `scope.Clone()`: a value copy of the scope (mutations of the clone do not
affect the original and vice versa; in this pure model cloning is the
identity on values). -/
def Scope.Clone (s : Scope) : Scope := s

/-- The `scope.SetUser(sentry.User{ID: userID})`. -/
def Scope.SetUser (s : Scope) (userID : String) : Scope := { s with user := userID }

/-- The `scope.SetLevel(level)`. -/
def Scope.SetLevel (s : Scope) (level : String) : Scope := { s with level := level }

/-- The `scope.AddBreadcrumb(breadcrumb, limit)` from sentry-go: append, then if
`len(breadcrumbs) > limit` keep `breadcrumbs[1 : limit+1]` (drop the oldest,
truncate to `limit`). -/
def Scope.AddBreadcrumb (s : Scope) (b : Breadcrumb) (limit : Nat) : Scope :=
  let breadcrumbs := s.breadcrumbs ++ [b]
  if breadcrumbs.length > limit then
    { s with breadcrumbs := (breadcrumbs.drop 1).take limit }
  else
    { s with breadcrumbs := breadcrumbs }

/-- The `scope.ClearBreadcrumbs()`. -/
def Scope.ClearBreadcrumbs (s : Scope) : Scope := { s with breadcrumbs := [] }

/-- The `LogLevel`: maps a log-level matching string to a Sentry level
(`sentry.Level` is a string type in sentry-go). -/
structure LogLevel where
  MatchingString : String
  SentryLevel : String
deriving DecidableEq, Repr

/-- The injected `SentryClient` capability.  `CaptureMessage` calls are
recorded in the result of each write; the only client-determined datum is the
boolean its `Flush` returns. -/
structure GoClient where
  flushResult : Bool
deriving DecidableEq, Repr

/-- The `SentryWriter` struct.  The mutex is dropped (the model is sequential:
each operation is an atomic state transition); `client` is `none` when no
client was ever supplied (nil interface). -/
structure SentryWriter where
  client : Option GoClient
  scope : Scope
  logLevels : List LogLevel
  filterLogsFlag : Bool
  addBreadcrumbsFlag : Bool
  breadcrumbsLimit : Nat
  levelFieldName : String

/-- The `turnOnFilterLogsFlag`. -/
def SentryWriter.turnOnFilterLogsFlag (s : SentryWriter) : SentryWriter :=
  { s with filterLogsFlag := true }

/-- The `New(logLevels ...LogLevel)`: default field name `"level"`, fresh scope,
given log levels; filtering turned on iff at least one level was supplied. -/
def New (logLevels : List LogLevel) : SentryWriter :=
  let writer : SentryWriter :=
    { client := none
      scope := Scope.newScope
      logLevels := logLevels
      filterLogsFlag := false
      addBreadcrumbsFlag := false
      breadcrumbsLimit := 0
      levelFieldName := "level" }
  if logLevels.length > 0 then writer.turnOnFilterLogsFlag else writer

/-- The `addLogLevel`. -/
def SentryWriter.addLogLevel (s : SentryWriter) (logLevel : LogLevel) : SentryWriter :=
  { s with logLevels := s.logLevels ++ [logLevel] }

/-- The `shouldFilterLogs`. -/
def SentryWriter.shouldFilterLogs (s : SentryWriter) : Bool := s.filterLogsFlag

/-- The `WithLogLevel`: append the level, then turn the filter flag on if it is not
already on. -/
def SentryWriter.WithLogLevel (s : SentryWriter) (logLevel : LogLevel) : SentryWriter :=
  let s := s.addLogLevel logLevel
  if !s.shouldFilterLogs then s.turnOnFilterLogsFlag else s

/-- The `WithLevelFieldName`. -/
def SentryWriter.WithLevelFieldName (s : SentryWriter) (name : String) : SentryWriter :=
  { s with levelFieldName := name }

/-- The `getLevelFieldName`. -/
def SentryWriter.getLevelFieldName (s : SentryWriter) : String := s.levelFieldName

/-- The `WithUserID`: sets the user on the shared scope. -/
def SentryWriter.WithUserID (s : SentryWriter) (userID : String) : SentryWriter :=
  { s with scope := s.scope.SetUser userID }

/-- The `WithClient`. -/
def SentryWriter.WithClient (s : SentryWriter) (client : GoClient) : SentryWriter :=
  { s with client := some client }

/-- The `WithBreadcrumbs(limit)`: turns on the breadcrumb flag and stores the
limit. -/
def SentryWriter.WithBreadcrumbs (s : SentryWriter) (limit : Nat) : SentryWriter :=
  { s with addBreadcrumbsFlag := true, breadcrumbsLimit := limit }

/-- The `shouldAddBreadcrumb`. -/
def SentryWriter.shouldAddBreadcrumb (s : SentryWriter) : Bool := s.addBreadcrumbsFlag

/-- The `getBreadcrumbsLimit`. -/
def SentryWriter.getBreadcrumbsLimit (s : SentryWriter) : Nat := s.breadcrumbsLimit

/-- The `addBreadcrumbToScope`. -/
def SentryWriter.addBreadcrumbToScope (s : SentryWriter) (b : Breadcrumb) : SentryWriter :=
  { s with scope := s.scope.AddBreadcrumb b s.getBreadcrumbsLimit }

/-- The `addBreadcrumb(log)`: no-op unless the breadcrumb flag is on; otherwise
build the breadcrumb from the log (decoded map, or raw-text fallback) and add
it to the scope under the stored limit. -/
def SentryWriter.addBreadcrumb (s : SentryWriter) (log : RawLog) : SentryWriter :=
  if !s.shouldAddBreadcrumb then s
  else s.addBreadcrumbToScope (mkBreadcrumb log)

/-- The `clearBreadcrumbs`. -/
def SentryWriter.clearBreadcrumbs (s : SentryWriter) : SentryWriter :=
  { s with scope := s.scope.ClearBreadcrumbs }

/-- The `getScope`: a clone of the shared scope. -/
def SentryWriter.getScope (s : SentryWriter) : Scope := s.scope.Clone

/-- The `findMatchingLogLevel(level)`: the first configured `LogLevel` whose
`MatchingString` equals `level`, if any. -/
def SentryWriter.findMatchingLogLevel (s : SentryWriter) (level : String) : Option LogLevel :=
  s.logLevels.find? (fun logLevel => logLevel.MatchingString == level)

/-- One `CaptureMessage(message, nil, scope)` call observed by the client. -/
structure Event where
  message : String
  scope : Scope

/-- The error returned by `Write`, by provenance:
`noClient` = `errors.New("no Sentry client supplied")`;
`malformedInput` wraps the failure of `json.Unmarshal log`;
`invalidSeverityField` wraps the failure of `json.Unmarshal eventMap[field]`. -/
inductive WriteError where
  | noClient : WriteError
  | malformedInput : WriteError
  | invalidSeverityField : WriteError
deriving DecidableEq, Repr

/-- The outcome of one `Write` call: the updated writer, the list of
`CaptureMessage` calls made during this write, and the returned
`(int, error)` pair. -/
structure WriteResult where
  writer : SentryWriter
  forwarded : List Event
  n : Nat
  err : Option WriteError

/-- The `Write(log)`, translated clause by clause from the source: nil-client
guard; clone the scope; if filtering, unmarshal the record to a map, unmarshal
the level field to a string, look up the matching level (suppress with a
breadcrumb when none matches), and set the level on the cloned scope; finally
capture the raw text with the cloned scope and clear the breadcrumbs of the
shared scope. -/
def SentryWriter.Write (s : SentryWriter) (log : RawLog) : WriteResult :=
  match s.client with
  | none => { writer := s, forwarded := [], n := 0, err := some .noClient }
  | some _ =>
    let scope := s.getScope
    if s.shouldFilterLogs then
      match unmarshalMap log.parsed with
      | .error _ => { writer := s, forwarded := [], n := 0, err := some .malformedInput }
      | .ok eventMap =>
        match unmarshalString (mapLookup eventMap s.getLevelFieldName) with
        | .error _ =>
          { writer := s, forwarded := [], n := 0, err := some .invalidSeverityField }
        | .ok level =>
          match s.findMatchingLogLevel level with
          | none =>
            { writer := s.addBreadcrumb log, forwarded := [], n := log.len, err := none }
          | some logLevel =>
            let scope := scope.SetLevel logLevel.SentryLevel
            { writer := s.clearBreadcrumbs
              forwarded := [{ message := log.raw, scope := scope }]
              n := log.len
              err := none }
    else
      { writer := s.clearBreadcrumbs
        forwarded := [{ message := log.raw, scope := scope }]
        n := log.len
        err := none }

/-- The `Flush(timeout)`: `return s.client.Flush(timeout)` with no nil-client
guard; with a nil client this is a nil-pointer dereference (Go panic),
modelled as `none`. -/
def SentryWriter.Flush (s : SentryWriter) : Option Bool :=
  match s.client with
  | none => none
  | some client => some client.flushResult

/-- The public operations of the package that mutate a writer, for stating
reachability and monotonicity across the lifetime of an instance (`SetDSN` /
`SetClientOptions` act through `WithClient`). -/
inductive Op where
  | withLogLevel (logLevel : LogLevel) : Op
  | withLevelFieldName (name : String) : Op
  | withUserID (userID : String) : Op
  | withClient (client : GoClient) : Op
  | withBreadcrumbs (limit : Nat) : Op
  | write (log : RawLog) : Op

/-- Apply one operation to a writer (the state effect of a `write` is the updated
writer it returns). -/
def applyOp (s : SentryWriter) (op : Op) : SentryWriter :=
  match op with
  | .withLogLevel logLevel => s.WithLogLevel logLevel
  | .withLevelFieldName name => s.WithLevelFieldName name
  | .withUserID userID => s.WithUserID userID
  | .withClient client => s.WithClient client
  | .withBreadcrumbs limit => s.WithBreadcrumbs limit
  | .write log => (s.Write log).writer

/-- Apply a sequence of operations in order. -/
def applyOps (s : SentryWriter) (ops : List Op) : SentryWriter :=
  ops.foldl applyOp s

/-- A writer state reachable in the lifetime of some instance: produced by
`New` followed by any sequence of public operations. -/
def Reachable (s : SentryWriter) : Prop :=
  ∃ logLevels ops, s = applyOps (New logLevels) ops

/-- Invariant tying the filter flag to the rule list (and recording that the
level of the shared scope is never set): holds of every reachable writer. -/
def WriterInv (s : SentryWriter) : Prop :=
  (s.filterLogsFlag = true ↔ s.logLevels ≠ []) ∧ s.scope.level = ""

/-- Spec-side predicate: the parse outcome is neither a JSON mapping nor a
JSON null (including not being JSON at all). -/
def notMappingOrNull : Option Json → Bool
  | some (.obj _) => false
  | some .null => false
  | _ => true

/-- Spec-side view of the field list the record decodes to, when it decodes:
a mapping gives its fields, a top-level null gives the empty mapping. -/
def decodedFields : Option Json → Option (List (String × Json))
  | some (.obj fields) => some fields
  | some .null => some []
  | _ => none

/-- Spec-side predicate: the looked-up severity value is absent, or is neither
a plain string nor a JSON null. -/
def notStringOrNull : Option Json → Bool
  | some (.str _) => false
  | some .null => false
  | _ => true

/-- The rule used throughout the repository tests: level string `"error"`
mapped to the sentry level `"error"`. -/
def errorRule : LogLevel := { MatchingString := "error", SentryLevel := "error" }

/-- A mock client, as in the tests (its `Flush` returns `true`). -/
def mockClient : GoClient := { flushResult := true }

/-- A writer configured as in the tests: one rule and an injected client. -/
def exampleWriter : SentryWriter := (New [errorRule]).WithClient mockClient

/-- The record of spec property P2, `{"level":"error","message":"blah"}`,
with its parse outcome. -/
def errorRecord : RawLog :=
  { raw := "\x7b\"level\":\"error\",\"message\":\"blah\"\x7d"
    parsed := some (.obj [("level", .str "error"), ("message", .str "blah")]) }

/-- The record `{"level":"info","message":"blah"}` from the suppression
test, with its parse outcome. -/
def infoRecord : RawLog :=
  { raw := "\x7b\"level\":\"info\",\"message\":\"blah\"\x7d"
    parsed := some (.obj [("level", .str "info"), ("message", .str "blah")]) }

/-- A record whose `level` field is JSON `null`. -/
def nullLevelRecord : RawLog :=
  { raw := "\x7b\"level\":null\x7d"
    parsed := some (.obj [("level", .null)]) }

/-- A record that is not valid JSON at all. -/
def nonJsonRecord : RawLog :=
  { raw := "just a random log which is not json formatted", parsed := none }

/-- The example writer with breadcrumbs turned on at capacity 20, as in the
tests. -/
def breadcrumbWriter : SentryWriter :=
  ((New [errorRule]).WithClient mockClient).WithBreadcrumbs 20

/-- A writer with no rules ever added and an injected client. -/
def unfilteredWriter : SentryWriter := (New []).WithClient mockClient

/-- A writer with two rules sharing the matching string `"error"` but mapped
to different sentry levels, inserted in order [high, low]. -/
def dupRuleWriter : SentryWriter :=
  (New [{ MatchingString := "error", SentryLevel := "high" },
        { MatchingString := "error", SentryLevel := "low" }]).WithClient mockClient

/-- The example writer with breadcrumbs turned on at capacity 0. -/
def zeroCapWriter : SentryWriter :=
  ((New [errorRule]).WithClient mockClient).WithBreadcrumbs 0

/-- A valid JSON record with no `level` field at all. -/
def noLevelRecord : RawLog :=
  { raw := "\x7b\"message\":\"blah\"\x7d"
    parsed := some (.obj [("message", .str "blah")]) }

/-! ## Helper lemmas -/

/-- The operation `AddBreadcrumb` touches only the breadcrumb list of a scope, never its level. -/
theorem scope_addBreadcrumb_level (sc : Scope) (b : Breadcrumb) (limit : Nat) :
    (sc.AddBreadcrumb b limit).level = sc.level := by
  unfold Scope.AddBreadcrumb
  dsimp only
  split <;> rfl

/-- The operation `AddBreadcrumb` touches only the breadcrumb list of a scope, never its user. -/
theorem scope_addBreadcrumb_user (sc : Scope) (b : Breadcrumb) (limit : Nat) :
    (sc.AddBreadcrumb b limit).user = sc.user := by
  unfold Scope.AddBreadcrumb
  dsimp only
  split <;> rfl

/-- A `Write` never changes any field of the writer other than (possibly) the
breadcrumb list of its scope: configuration, client, and the user id and
level of the scope are untouched. -/
theorem write_preserves_fields (s : SentryWriter) (log : RawLog) :
    (s.Write log).writer.client = s.client ∧
    (s.Write log).writer.logLevels = s.logLevels ∧
    (s.Write log).writer.filterLogsFlag = s.filterLogsFlag ∧
    (s.Write log).writer.addBreadcrumbsFlag = s.addBreadcrumbsFlag ∧
    (s.Write log).writer.breadcrumbsLimit = s.breadcrumbsLimit ∧
    (s.Write log).writer.levelFieldName = s.levelFieldName ∧
    (s.Write log).writer.scope.level = s.scope.level ∧
    (s.Write log).writer.scope.user = s.scope.user := by
  unfold SentryWriter.Write SentryWriter.addBreadcrumb SentryWriter.addBreadcrumbToScope
    SentryWriter.clearBreadcrumbs Scope.ClearBreadcrumbs
  split
  · exact ⟨rfl, rfl, rfl, rfl, rfl, rfl, rfl, rfl⟩
  · split
    · split
      · exact ⟨rfl, rfl, rfl, rfl, rfl, rfl, rfl, rfl⟩
      · split
        · exact ⟨rfl, rfl, rfl, rfl, rfl, rfl, rfl, rfl⟩
        · split
          · split
            · exact ⟨rfl, rfl, rfl, rfl, rfl, rfl, rfl, rfl⟩
            · exact ⟨rfl, rfl, rfl, rfl, rfl, rfl,
                scope_addBreadcrumb_level s.scope (mkBreadcrumb log) s.getBreadcrumbsLimit,
                scope_addBreadcrumb_user s.scope (mkBreadcrumb log) s.getBreadcrumbsLimit⟩
          · exact ⟨rfl, rfl, rfl, rfl, rfl, rfl, rfl, rfl⟩
    · exact ⟨rfl, rfl, rfl, rfl, rfl, rfl, rfl, rfl⟩

/-- Each operation preserves the writer invariant. -/
theorem writerInv_applyOp (s : SentryWriter) (op : Op) (h : WriterInv s) :
    WriterInv (applyOp s op) := by
  obtain ⟨hiff, hlevel⟩ := h
  cases op with
  | withLogLevel logLevel =>
    simp only [applyOp, SentryWriter.WithLogLevel, SentryWriter.addLogLevel,
      SentryWriter.shouldFilterLogs, SentryWriter.turnOnFilterLogsFlag, WriterInv]
    constructor
    · split <;> simp_all
    · split <;> exact hlevel
  | withLevelFieldName name => exact ⟨hiff, hlevel⟩
  | withUserID userID => exact ⟨hiff, hlevel⟩
  | withClient client => exact ⟨hiff, hlevel⟩
  | withBreadcrumbs limit => exact ⟨hiff, hlevel⟩
  | write log =>
    obtain ⟨_, h2, h3, _, _, _, h7, _⟩ := write_preserves_fields s log
    constructor
    · simp only [applyOp]
      rw [h3, h2]
      exact hiff
    · simp only [applyOp]
      rw [h7]
      exact hlevel

/-- The invariant holds of a freshly constructed writer. -/
theorem writerInv_new (logLevels : List LogLevel) : WriterInv (New logLevels) := by
  unfold New WriterInv SentryWriter.turnOnFilterLogsFlag Scope.newScope
  cases logLevels with
  | nil => simp
  | cons l ls => simp

/-- Any sequence of operations preserves the writer invariant. -/
theorem writerInv_applyOps (s : SentryWriter) (ops : List Op) (h : WriterInv s) :
    WriterInv (applyOps s ops) := by
  induction ops generalizing s with
  | nil => exact h
  | cons op ops ih => exact ih (applyOp s op) (writerInv_applyOp s op h)

/-- The invariant holds of every reachable writer state. -/
theorem reachable_writerInv (s : SentryWriter) (h : Reachable s) : WriterInv s := by
  obtain ⟨logLevels, ops, rfl⟩ := h
  exact writerInv_applyOps _ ops (writerInv_new logLevels)

/-- Reduction of a filtered `Write` once the record decodes to a map whose
level field holds the string `lvl`: the outcome is decided by
`findMatchingLogLevel`. -/
theorem write_filtered_eq (s : SentryWriter) (c : GoClient) (log : RawLog)
    (fields : List (String × Json)) (lvl : String)
    (hc : s.client = some c) (hf : s.filterLogsFlag = true)
    (hp : log.parsed = some (.obj fields))
    (hl : mapLookup fields s.levelFieldName = some (.str lvl)) :
    s.Write log =
      match s.findMatchingLogLevel lvl with
      | none => { writer := s.addBreadcrumb log, forwarded := [], n := log.len, err := none }
      | some logLevel =>
          { writer := s.clearBreadcrumbs
            forwarded := [{ message := log.raw
                            scope := (s.getScope).SetLevel logLevel.SentryLevel }]
            n := log.len
            err := none } := by
  unfold SentryWriter.Write
  rw [hc]
  simp only [SentryWriter.shouldFilterLogs, hf, if_true, SentryWriter.getLevelFieldName]
  rw [hp]
  simp only [unmarshalMap]
  rw [hl]
  simp only [unmarshalString]

/-! ## Claim theorems -/

/-- Claim C4: for every Forwarder whose client capability has never been set,
every write — for any input, filtered or not — returns `(0, NoClientConfigured)`
before any parsing is attempted (the result does not depend on the input at
all); nothing is forwarded, no breadcrumb is recorded and the writer is
unchanged. -/
theorem write_no_client_guard (s : SentryWriter) (log : RawLog) (hc : s.client = none) :
    s.Write log = { writer := s, forwarded := [], n := 0, err := some WriteError.noClient } := by
  unfold SentryWriter.Write
  rw [hc]

/-- Witness for C4: a freshly constructed writer with a rule but no client,
fed a non-JSON record. -/
theorem write_no_client_guard_witness :
    (New [errorRule]).client = none ∧
    (New [errorRule]).Write nonJsonRecord =
      { writer := New [errorRule], forwarded := [], n := 0, err := some WriteError.noClient } :=
  ⟨rfl, write_no_client_guard (New [errorRule]) nonJsonRecord rfl⟩

/-- Claim C9: `Flush` has no nil-client guard, so on a writer whose client was
never set it dereferences the nil client (a Go panic, modelled as `none`),
whereas `Write` on the same writer returns the `NoClientConfigured` error. -/
theorem flush_nil_client_dereference (s : SentryWriter) (hc : s.client = none) :
    s.Flush = none ∧ ∀ log, (s.Write log).err = some WriteError.noClient := by
  constructor
  · unfold SentryWriter.Flush
    rw [hc]
  · intro log
    unfold SentryWriter.Write
    rw [hc]

/-- Witness for C9: a freshly constructed writer with no client. -/
theorem flush_nil_client_dereference_witness :
    (New []).Flush = none ∧ ((New []).Write errorRecord).err = some WriteError.noClient :=
  ⟨(flush_nil_client_dereference (New []) rfl).1,
   (flush_nil_client_dereference (New []) rfl).2 errorRecord⟩

/-- The `WithLogLevel` always leaves the filter flag on. -/
theorem withLogLevel_flag (s : SentryWriter) (logLevel : LogLevel) :
    (s.WithLogLevel logLevel).filterLogsFlag = true := by
  simp only [SentryWriter.WithLogLevel, SentryWriter.addLogLevel, SentryWriter.shouldFilterLogs,
    SentryWriter.turnOnFilterLogsFlag]
  split <;> simp_all

/-- No public operation ever turns the filter flag off. -/
theorem applyOp_filter_flag_mono (s : SentryWriter) (op : Op) (hs : s.filterLogsFlag = true) :
    (applyOp s op).filterLogsFlag = true := by
  cases op with
  | withLogLevel logLevel => exact withLogLevel_flag s logLevel
  | withLevelFieldName name => exact hs
  | withUserID userID => exact hs
  | withClient client => exact hs
  | withBreadcrumbs limit => exact hs
  | write log =>
    simp only [applyOp]
    rw [(write_preserves_fields s log).2.2.1]
    exact hs

/-- Claim C7: the filtering flag is monotonic — it is on after construction
with at least one rule, on after any `WithLogLevel` call, and once on it stays
on across any sequence of public operations for the lifetime of the
instance. -/
theorem filter_flag_monotonic :
    (∀ logLevels, logLevels ≠ [] → (New logLevels).filterLogsFlag = true) ∧
    (∀ (s : SentryWriter) (logLevel : LogLevel),
        (applyOp s (.withLogLevel logLevel)).filterLogsFlag = true) ∧
    (∀ (s : SentryWriter) (ops : List Op),
        s.filterLogsFlag = true → (applyOps s ops).filterLogsFlag = true) := by
  refine ⟨?_, ?_, ?_⟩
  · intro logLevels h
    cases logLevels with
    | nil => exact absurd rfl h
    | cons l ls => simp [New, SentryWriter.turnOnFilterLogsFlag]
  · intro s logLevel
    exact withLogLevel_flag s logLevel
  · intro s ops hs
    induction ops generalizing s with
    | nil => exact hs
    | cons op ops ih => exact ih (applyOp s op) (applyOp_filter_flag_mono s op hs)

/-- Witness for C7: construction with one rule turns the flag on and a
subsequent write plus breadcrumb configuration leave it on. -/
theorem filter_flag_monotonic_witness :
    (New [errorRule]).filterLogsFlag = true ∧
    (applyOps (New [errorRule])
        [Op.withClient mockClient, Op.write nonJsonRecord,
         Op.withBreadcrumbs 20]).filterLogsFlag = true :=
  ⟨filter_flag_monotonic.1 [errorRule] (by simp),
   filter_flag_monotonic.2.2 (New [errorRule]) _ (filter_flag_monotonic.1 [errorRule] (by simp))⟩

/-- Claim C1: with filtering on, a configured client, and a record decoding to
a map whose level field is a string matched by some rule, `Write` forwards
exactly one message equal to the full raw input, attached to a snapshot of the
shared scope (its user id and breadcrumb history as of this write) tagged with
the sentry level of the matched rule; it then clears the breadcrumbs of the
shared scope while leaving its user id (and everything else) unchanged, and returns
`(len(log), nil)`. -/
theorem write_filtered_match_forwards (s : SentryWriter) (c : GoClient) (log : RawLog)
    (fields : List (String × Json)) (lvl : String) (logLevel : LogLevel)
    (hc : s.client = some c) (hf : s.filterLogsFlag = true)
    (hp : log.parsed = some (.obj fields))
    (hl : mapLookup fields s.levelFieldName = some (.str lvl))
    (hm : s.findMatchingLogLevel lvl = some logLevel) :
    s.Write log =
      { writer := { s with scope := { s.scope with breadcrumbs := [] } }
        forwarded := [{ message := log.raw
                        scope := { user := s.scope.user
                                   level := logLevel.SentryLevel
                                   breadcrumbs := s.scope.breadcrumbs } }]
        n := log.len
        err := none } := by
  rw [write_filtered_eq s c log fields lvl hc hf hp hl, hm]
  rfl

/-- Witness for C1 at the configuration of the tests: rule "error"→"error", record
`{"level":"error","message":"blah"}`. -/
theorem write_filtered_match_forwards_witness :
    exampleWriter.Write errorRecord =
      { writer := { exampleWriter with scope := { exampleWriter.scope with breadcrumbs := [] } }
        forwarded := [{ message := errorRecord.raw
                        scope := { user := "", level := "error", breadcrumbs := [] } }]
        n := errorRecord.len
        err := none } :=
  write_filtered_match_forwards exampleWriter mockClient errorRecord
    [("level", Json.str "error"), ("message", Json.str "blah")] "error" errorRule
    rfl rfl rfl rfl rfl

/-- Claim C2: with filtering on and a configured client, a record decoding to
a map whose level string matches no rule is suppressed: nothing is forwarded,
one breadcrumb built from the decoded fields of the record is appended (under the
stored capacity) exactly when breadcrumb capture is enabled, and the write
returns `(len(log), nil)` — no-match is not an error. -/
theorem write_filtered_nomatch_suppresses (s : SentryWriter) (c : GoClient) (log : RawLog)
    (fields : List (String × Json)) (lvl : String)
    (hc : s.client = some c) (hf : s.filterLogsFlag = true)
    (hp : log.parsed = some (.obj fields))
    (hl : mapLookup fields s.levelFieldName = some (.str lvl))
    (hm : s.findMatchingLogLevel lvl = none) :
    s.Write log =
      { writer :=
          if s.addBreadcrumbsFlag then
            { s with scope := s.scope.AddBreadcrumb (.data fields) s.breadcrumbsLimit }
          else s
        forwarded := []
        n := log.len
        err := none } := by
  rw [write_filtered_eq s c log fields lvl hc hf hp hl, hm]
  cases hb : s.addBreadcrumbsFlag with
  | false =>
    simp [SentryWriter.addBreadcrumb, SentryWriter.shouldAddBreadcrumb, hb]
  | true =>
    simp [SentryWriter.addBreadcrumb, SentryWriter.shouldAddBreadcrumb,
      SentryWriter.addBreadcrumbToScope, SentryWriter.getBreadcrumbsLimit, hb, mkBreadcrumb, hp]

/-- Witness for C2 at the configuration of the tests with breadcrumbs at capacity
20 and the record `{"level":"info","message":"blah"}`. -/
theorem write_filtered_nomatch_suppresses_witness :
    breadcrumbWriter.Write infoRecord =
      { writer := { breadcrumbWriter with
          scope := { user := "", level := ""
                     breadcrumbs := [.data [("level", .str "info"), ("message", .str "blah")]] } }
        forwarded := []
        n := infoRecord.len
        err := none } :=
  write_filtered_nomatch_suppresses breadcrumbWriter mockClient infoRecord
    [("level", Json.str "info"), ("message", Json.str "blah")] "info"
    rfl rfl rfl rfl rfl

/-- Claim C3: for a reachable writer with zero configured rules and a
configured client, `Write` on any byte sequence — including non-JSON input —
forwards the input verbatim with no severity tag on the attached scope (the
level of the shared scope is still the unset zero value), attempts no parsing,
raises no error, and returns `(len(log), nil)`. -/
theorem write_unfiltered_passthrough (s : SentryWriter) (c : GoClient) (log : RawLog)
    (hr : Reachable s) (h0 : s.logLevels = []) (hc : s.client = some c) :
    s.Write log =
      { writer := { s with scope := { s.scope with breadcrumbs := [] } }
        forwarded := [{ message := log.raw, scope := s.scope }]
        n := log.len
        err := none } ∧
    s.scope.level = "" := by
  obtain ⟨hiff, hlevel⟩ := reachable_writerInv s hr
  have hf : s.filterLogsFlag = false := by
    rcases Bool.eq_false_or_eq_true s.filterLogsFlag with h | h
    · exact absurd (hiff.mp h) (by simp [h0])
    · exact h
  have key : s.Write log =
      { writer := s.clearBreadcrumbs
        forwarded := [{ message := log.raw, scope := s.getScope }]
        n := log.len
        err := none } := by
    unfold SentryWriter.Write
    rw [hc]
    simp [SentryWriter.shouldFilterLogs, hf]
  exact ⟨key, hlevel⟩

/-- Witness for C3: a writer built with no rules and a client, fed a non-JSON
record. -/
theorem write_unfiltered_passthrough_witness :
    unfilteredWriter.Write nonJsonRecord =
      { writer := { unfilteredWriter with
          scope := { unfilteredWriter.scope with breadcrumbs := [] } }
        forwarded := [{ message := nonJsonRecord.raw, scope := unfilteredWriter.scope }]
        n := nonJsonRecord.len
        err := none } ∧
    unfilteredWriter.scope.level = "" :=
  write_unfiltered_passthrough unfilteredWriter mockClient nonJsonRecord
    ⟨[], [Op.withClient mockClient], rfl⟩ rfl rfl

/-- A parse outcome that is neither a mapping nor null fails to unmarshal into
the event map. -/
theorem unmarshalMap_error_of_notMappingOrNull (p : Option Json)
    (h : notMappingOrNull p = true) : unmarshalMap p = .error () := by
  cases p with
  | none => rfl
  | some j => cases j <;> simp_all [notMappingOrNull, unmarshalMap]

/-- A parse outcome with decoded fields unmarshals into exactly those
fields. -/
theorem unmarshalMap_ok_of_decodedFields (p : Option Json) (fields : List (String × Json))
    (h : decodedFields p = some fields) : unmarshalMap p = .ok fields := by
  cases p with
  | none => simp [decodedFields] at h
  | some j => cases j <;> simp_all [decodedFields, unmarshalMap]

/-- A severity value that is neither a string nor null fails to unmarshal into
the level string. -/
theorem unmarshalString_error_of_notStringOrNull (v : Option Json)
    (h : notStringOrNull v = true) : unmarshalString v = .error () := by
  cases v with
  | none => rfl
  | some j => cases j <;> simp_all [notStringOrNull, unmarshalString]

/-- Claim C5, amended: with filtering on and a client set, if the input fails
to parse as JSON or parses as a value other than a mapping or null, `Write`
returns `(0, MalformedInput)`; if it decodes to a field map (null decoding to
the empty map) whose severity field is absent or holds a value that is neither
a string nor null, `Write` returns `(0, MissingOrInvalidSeverityField)`. In
both cases nothing is forwarded, no breadcrumb is recorded and the writer —
shared context included — is unchanged. (A JSON-null severity value is NOT an
error: it decodes to the empty string and proceeds to rule matching, see the
counterexample.) -/
theorem write_filtered_decode_failure (s : SentryWriter) (c : GoClient) (log : RawLog)
    (hc : s.client = some c) (hf : s.filterLogsFlag = true) :
    (notMappingOrNull log.parsed = true →
        s.Write log = { writer := s, forwarded := [], n := 0
                        err := some WriteError.malformedInput }) ∧
    (∀ fields, decodedFields log.parsed = some fields →
        notStringOrNull (mapLookup fields s.levelFieldName) = true →
        s.Write log = { writer := s, forwarded := [], n := 0
                        err := some WriteError.invalidSeverityField }) := by
  constructor
  · intro h
    unfold SentryWriter.Write
    rw [hc]
    simp only [SentryWriter.shouldFilterLogs, hf, if_true]
    simp only [unmarshalMap_error_of_notMappingOrNull log.parsed h]
  · intro fields hfields h
    unfold SentryWriter.Write
    rw [hc]
    simp only [SentryWriter.shouldFilterLogs, hf, if_true, SentryWriter.getLevelFieldName]
    simp only [unmarshalMap_ok_of_decodedFields log.parsed fields hfields]
    simp only [unmarshalString_error_of_notStringOrNull (mapLookup fields s.levelFieldName) h]

/-- Counterexample to claim C5 as stated: the record `{"level":null}`
parses as a mapping whose severity value is JSON null — not a plain text
value — yet `Write` does not return `(0, error)`: the Go `json.Unmarshal` of
`null` into a string is a no-op, the level decodes to `""`, no rule matches
it, and the write returns `(len(input), nil)` as a normal suppression. -/
theorem write_filtered_decode_failure_counterexample :
    nullLevelRecord.parsed = some (.obj [("level", Json.null)]) ∧
    nullLevelRecord.len = 14 ∧
    exampleWriter.Write nullLevelRecord =
      { writer := exampleWriter, forwarded := [], n := nullLevelRecord.len, err := none } :=
  ⟨rfl, rfl, rfl⟩

/-- Witness for C5 (amended) at two inputs: a non-JSON record, and a valid
JSON record with no level field. -/
theorem write_filtered_decode_failure_witness :
    (exampleWriter.Write nonJsonRecord =
      { writer := exampleWriter, forwarded := [], n := 0
        err := some WriteError.malformedInput }) ∧
    (exampleWriter.Write noLevelRecord =
      { writer := exampleWriter, forwarded := [], n := 0
        err := some WriteError.invalidSeverityField }) :=
  ⟨(write_filtered_decode_failure exampleWriter mockClient nonJsonRecord rfl rfl).1 rfl,
   (write_filtered_decode_failure exampleWriter mockClient noLevelRecord rfl rfl).2
     [("message", Json.str "blah")] rfl rfl⟩

/-- The `find?` on the rule list returns the first element, in insertion order,
whose matching string equals the level: every earlier element does not
match. -/
theorem find_first_match_spec (logLevels : List LogLevel) (lvl : String) (r : LogLevel)
    (h : logLevels.find? (fun x => x.MatchingString == lvl) = some r) :
    ∃ i, ∃ hi : i < logLevels.length,
      logLevels.get ⟨i, hi⟩ = r ∧ r.MatchingString = lvl ∧
      ∀ j (hj : j < logLevels.length), j < i →
        (logLevels.get ⟨j, hj⟩).MatchingString ≠ lvl := by
  induction logLevels with
  | nil => simp at h
  | cons a tl ih =>
    by_cases ha : a.MatchingString = lvl
    · rw [List.find?_cons_of_pos _ (by simp [ha])] at h
      obtain rfl : a = r := by simpa using h
      refine ⟨0, by simp, rfl, ha, ?_⟩
      intro j hj hj0
      exact absurd hj0 (Nat.not_lt_zero j)
    · rw [List.find?_cons_of_neg _ (by simp [ha])] at h
      obtain ⟨i, hi, hget, hr, hmin⟩ := ih h
      refine ⟨i + 1, Nat.succ_lt_succ hi, hget, hr, ?_⟩
      intro j hj hji
      cases j with
      | zero => exact ha
      | succ j =>
        exact hmin j (Nat.lt_of_succ_lt_succ hj) (Nat.lt_of_succ_lt_succ hji)

/-- Claim C6: with two rules sharing the same matching string but different
severities inserted in order [A, B], a record whose level equals that string
is forwarded tagged with the severity of A (never that of B); and in general the rule
lookup returns the first rule in insertion order whose matching string equals
the extracted level, every earlier rule not matching. -/
theorem first_match_wins (s : SentryWriter) (c : GoClient) (log : RawLog)
    (fields : List (String × Json)) (tok : String) (A B : LogLevel) (rest : List LogLevel)
    (hc : s.client = some c) (hf : s.filterLogsFlag = true)
    (hrules : s.logLevels = A :: B :: rest)
    (hA : A.MatchingString = tok) (hB : B.MatchingString = tok)
    (hp : log.parsed = some (.obj fields))
    (hl : mapLookup fields s.levelFieldName = some (.str tok)) :
    (s.Write log).forwarded =
      [{ message := log.raw
         scope := { user := s.scope.user, level := A.SentryLevel
                    breadcrumbs := s.scope.breadcrumbs } }] ∧
    ∀ (t : SentryWriter) (lvl : String) (r : LogLevel),
      t.findMatchingLogLevel lvl = some r →
      ∃ i, ∃ hi : i < t.logLevels.length,
        t.logLevels.get ⟨i, hi⟩ = r ∧ r.MatchingString = lvl ∧
        ∀ j (hj : j < t.logLevels.length), j < i →
          (t.logLevels.get ⟨j, hj⟩).MatchingString ≠ lvl := by
  constructor
  · have hm : s.findMatchingLogLevel tok = some A := by
      unfold SentryWriter.findMatchingLogLevel
      rw [hrules]
      rw [List.find?_cons_of_pos _ (by simp [hA])]
    rw [write_filtered_eq s c log fields tok hc hf hp hl, hm]
    rfl
  · intro t lvl r h
    exact find_first_match_spec t.logLevels lvl r h

/-- Witness for C6: rules [error→high, error→low] and the record
`{"level":"error","message":"blah"}` forward with level "high". -/
theorem first_match_wins_witness :
    (dupRuleWriter.Write errorRecord).forwarded =
      [{ message := errorRecord.raw
         scope := { user := "", level := "high", breadcrumbs := [] } }] :=
  (first_match_wins dupRuleWriter mockClient errorRecord
    [("level", Json.str "error"), ("message", Json.str "blah")] "error"
    { MatchingString := "error", SentryLevel := "high" }
    { MatchingString := "error", SentryLevel := "low" } []
    rfl rfl rfl rfl rfl rfl rfl).1

/-- Appending a breadcrumb under limit 0 always leaves the history empty: the
appended entry is immediately evicted. -/
theorem scope_addBreadcrumb_zero (sc : Scope) (b : Breadcrumb) :
    (sc.AddBreadcrumb b 0).breadcrumbs = [] := by
  simp [Scope.AddBreadcrumb]

/-- The breadcrumb list after a `Write` is the old list, the empty list, or
the old list with one breadcrumb appended under the stored limit; and every
event forwarded by the write carries the breadcrumb list as of the start of
the write. -/
theorem write_breadcrumbs_cases (s : SentryWriter) (log : RawLog) :
    ((s.Write log).writer.scope.breadcrumbs = s.scope.breadcrumbs ∨
      (s.Write log).writer.scope.breadcrumbs = [] ∨
      (s.Write log).writer.scope.breadcrumbs =
        (s.scope.AddBreadcrumb (mkBreadcrumb log) s.breadcrumbsLimit).breadcrumbs) ∧
    ∀ e ∈ (s.Write log).forwarded, e.scope.breadcrumbs = s.scope.breadcrumbs := by
  unfold SentryWriter.Write SentryWriter.addBreadcrumb SentryWriter.addBreadcrumbToScope
    SentryWriter.clearBreadcrumbs Scope.ClearBreadcrumbs SentryWriter.getScope Scope.Clone
  split
  · exact ⟨Or.inl rfl, by simp⟩
  · split
    · split
      · exact ⟨Or.inl rfl, by simp⟩
      · split
        · exact ⟨Or.inl rfl, by simp⟩
        · split
          · split
            · exact ⟨Or.inl rfl, by simp⟩
            · exact ⟨Or.inr (Or.inr rfl), by simp⟩
          · refine ⟨Or.inr (Or.inl rfl), ?_⟩
            intro e he
            rw [List.mem_singleton] at he
            rw [he]
            rfl
    · refine ⟨Or.inr (Or.inl rfl), ?_⟩
      intro e he
      rw [List.mem_singleton] at he
      rw [he]

/-- Claim C8: enabling breadcrumbs with capacity 0 never errors (it is a total
state update that just sets the flag and stores the capacity); under capacity
0 every breadcrumb append leaves the history empty, so starting from an empty
history every write keeps it empty and every forwarded event carries an empty
breadcrumb history. -/
theorem breadcrumbs_capacity_zero :
    (∀ s : SentryWriter, applyOp s (.withBreadcrumbs 0) =
        { s with addBreadcrumbsFlag := true, breadcrumbsLimit := 0 }) ∧
    (∀ (sc : Scope) (b : Breadcrumb), (sc.AddBreadcrumb b 0).breadcrumbs = []) ∧
    (∀ (s : SentryWriter) (log : RawLog),
        s.breadcrumbsLimit = 0 → s.scope.breadcrumbs = [] →
        (s.Write log).writer.scope.breadcrumbs = [] ∧
        ∀ e ∈ (s.Write log).forwarded, e.scope.breadcrumbs = []) := by
  refine ⟨fun s => rfl, fun sc b => scope_addBreadcrumb_zero sc b, ?_⟩
  intro s log hlim hempty
  obtain ⟨hcases, hforwarded⟩ := write_breadcrumbs_cases s log
  constructor
  · rcases hcases with h | h | h
    · rw [h, hempty]
    · exact h
    · rw [h, hlim]
      exact scope_addBreadcrumb_zero s.scope (mkBreadcrumb log)
  · intro e he
    rw [hforwarded e he, hempty]

/-- Witness for C8: an append at limit 0 on a non-empty history empties it,
and a suppressed write plus a forwarding write at capacity 0 keep every
observable history empty. -/
theorem breadcrumbs_capacity_zero_witness :
    (Scope.AddBreadcrumb { user := "u", level := "", breadcrumbs := [.message "old"] }
        (.message "new") 0).breadcrumbs = [] ∧
    ((zeroCapWriter.Write infoRecord).writer.scope.breadcrumbs = [] ∧
      ∀ e ∈ (zeroCapWriter.Write infoRecord).forwarded, e.scope.breadcrumbs = []) ∧
    ((zeroCapWriter.Write errorRecord).writer.scope.breadcrumbs = [] ∧
      ∀ e ∈ (zeroCapWriter.Write errorRecord).forwarded, e.scope.breadcrumbs = []) :=
  ⟨breadcrumbs_capacity_zero.2.1 _ _,
   breadcrumbs_capacity_zero.2.2 zeroCapWriter infoRecord rfl rfl,
   breadcrumbs_capacity_zero.2.2 zeroCapWriter errorRecord rfl rfl⟩

/-- The `WithLogLevel` does not touch the breadcrumb flag. -/
theorem withLogLevel_addBreadcrumbsFlag (s : SentryWriter) (logLevel : LogLevel) :
    (s.WithLogLevel logLevel).addBreadcrumbsFlag = s.addBreadcrumbsFlag := by
  simp only [SentryWriter.WithLogLevel, SentryWriter.addLogLevel, SentryWriter.shouldFilterLogs,
    SentryWriter.turnOnFilterLogsFlag]
  split <;> rfl

/-- No public operation ever turns the breadcrumb flag off. -/
theorem applyOp_breadcrumb_flag_mono (s : SentryWriter) (op : Op)
    (hs : s.addBreadcrumbsFlag = true) : (applyOp s op).addBreadcrumbsFlag = true := by
  cases op with
  | withLogLevel logLevel =>
    show (s.WithLogLevel logLevel).addBreadcrumbsFlag = true
    rw [withLogLevel_addBreadcrumbsFlag]
    exact hs
  | withLevelFieldName name => exact hs
  | withUserID userID => exact hs
  | withClient client => exact hs
  | withBreadcrumbs limit => rfl
  | write log =>
    simp only [applyOp]
    rw [(write_preserves_fields s log).2.2.2.1]
    exact hs

/-- Claim C10: `WithBreadcrumbs` always sets the breadcrumb flag and replaces
the stored capacity; no public operation ever clears the flag; and a
suppressed filtered write with the flag on appends a breadcrumb to the shared
scope using the currently stored capacity. -/
theorem breadcrumb_flag_monotonic :
    (∀ (s : SentryWriter) (limit : Nat),
        applyOp s (.withBreadcrumbs limit) =
          { s with addBreadcrumbsFlag := true, breadcrumbsLimit := limit }) ∧
    (∀ (s : SentryWriter) (ops : List Op),
        s.addBreadcrumbsFlag = true → (applyOps s ops).addBreadcrumbsFlag = true) ∧
    (∀ (s : SentryWriter) (c : GoClient) (log : RawLog) (fields : List (String × Json))
        (lvl : String),
        s.client = some c → s.filterLogsFlag = true → s.addBreadcrumbsFlag = true →
        log.parsed = some (.obj fields) →
        mapLookup fields s.levelFieldName = some (.str lvl) →
        s.findMatchingLogLevel lvl = none →
        (s.Write log).writer.scope =
          s.scope.AddBreadcrumb (mkBreadcrumb log) s.breadcrumbsLimit) := by
  refine ⟨fun s limit => rfl, ?_, ?_⟩
  · intro s ops hs
    induction ops generalizing s with
    | nil => exact hs
    | cons op ops ih => exact ih (applyOp s op) (applyOp_breadcrumb_flag_mono s op hs)
  · intro s c log fields lvl hc hf hb hp hl hm
    rw [write_filtered_eq s c log fields lvl hc hf hp hl, hm]
    simp [SentryWriter.addBreadcrumb, SentryWriter.shouldAddBreadcrumb, hb,
      SentryWriter.addBreadcrumbToScope, SentryWriter.getBreadcrumbsLimit]

/-- Witness for C10: the flag stays on across a write and a field-name change,
and a suppressed write at capacity 20 appends one breadcrumb under that
capacity. -/
theorem breadcrumb_flag_monotonic_witness :
    (applyOps breadcrumbWriter
        [Op.write errorRecord, Op.withLevelFieldName "severity"]).addBreadcrumbsFlag = true ∧
    (breadcrumbWriter.Write infoRecord).writer.scope =
      breadcrumbWriter.scope.AddBreadcrumb (mkBreadcrumb infoRecord)
        breadcrumbWriter.breadcrumbsLimit :=
  ⟨breadcrumb_flag_monotonic.2.1 breadcrumbWriter _ rfl,
   breadcrumb_flag_monotonic.2.2 breadcrumbWriter mockClient infoRecord
     [("level", Json.str "info"), ("message", Json.str "blah")] "info"
     rfl rfl rfl rfl rfl rfl⟩

end Sentrywriter
